import Mathlib

/-!
Verification development for the QEMU virtual-machine lifecycle controller
in src/src/platform/backends/qemu/qemu_virtual_machine.cpp.

The C++ code is shallowly embedded: Qt's JSON types (QJsonValue/QJsonObject,
QJsonDocument::toJson/fromJson) are modelled on the JSON subset this file
uses (null, booleans, integers, strings, objects); the controller's state
and its signal handlers become pure functions from a state record to a new
state record paired with a trace of observable effects (process writes,
kills, persistence calls, monitor callbacks, log lines).
-/

namespace Multipass

/-! ## JSON value model (QJsonValue / QJsonObject)

QJsonObject keeps its members sorted by key; a lookup of a missing key
yields an Undefined value (distinct from Null). -/

inductive JsonValue where
  | undefined : JsonValue
  | null : JsonValue
  | bool (b : Bool) : JsonValue
  | num (n : Int) : JsonValue
  | str (s : String) : JsonValue
  | obj (members : List (String × JsonValue)) : JsonValue
deriving Repr

/-- Structural equality test on JSON values. -/
def JsonValue.beq : JsonValue → JsonValue → Bool
  | .undefined, .undefined => true
  | .null, .null => true
  | .bool a, .bool b => a == b
  | .num a, .num b => a == b
  | .str a, .str b => a == b
  | .obj a, .obj b => beqMembers a b
  | _, _ => false
where beqMembers : List (String × JsonValue) → List (String × JsonValue) → Bool
  | [], [] => true
  | (k, v) :: xs, (l, w) :: ys => k == l && JsonValue.beq v w && beqMembers xs ys
  | _, _ => false

instance : BEq JsonValue := ⟨JsonValue.beq⟩

/-- Lexicographic order on character lists by code point, the key order of
QJsonObject for the plain ASCII keys this program uses. -/
def charListLt : List Char → List Char → Bool
  | [], [] => false
  | [], _ :: _ => true
  | _ :: _, [] => false
  | a :: as, b :: bs =>
    decide (a.toNat < b.toNat) || (a == b && charListLt as bs)

/-- Key comparison used by the object insertions below. -/
def strLtB (a b : String) : Bool :=
  charListLt a.toList b.toList

/-- QJsonObject::insert keeps members sorted by key, replacing an existing
entry with the same key. -/
def jsonInsert (k : String) (v : JsonValue) :
    List (String × JsonValue) → List (String × JsonValue)
  | [] => [(k, v)]
  | (l, w) :: rest =>
    if strLtB k l then (k, v) :: (l, w) :: rest
    else if k = l then (k, v) :: rest
    else (l, w) :: jsonInsert k v rest

/-- QJsonObject::contains. -/
def jsonContains (members : List (String × JsonValue)) (k : String) : Bool :=
  members.any fun m => m.fst == k

/-- QJsonObject::operator[]: the value at a key, Undefined when absent. -/
def jsonGet (members : List (String × JsonValue)) (k : String) : JsonValue :=
  match members.find? fun m => m.fst == k with
  | some m => m.snd
  | none => .undefined

/-- QJsonValue::toInt with default 0: only a whole number converts. -/
def JsonValue.toInt : JsonValue → Int
  | .num n => n
  | _ => 0

/-- QJsonValue::toBool with default false. -/
def JsonValue.toBool : JsonValue → Bool
  | .bool b => b
  | _ => false

/-- QJsonValue::toString with default null string, modelled as empty. -/
def JsonValue.toStr : JsonValue → String
  | .str s => s
  | _ => ""

/-- QJsonValue::isNull: true exactly for a JSON null (not for Undefined). -/
def JsonValue.isNull : JsonValue → Bool
  | .null => true
  | _ => false

/-- QJsonDocument::object(): the document's object, empty when it is not one. -/
def JsonValue.objectMembers : JsonValue → List (String × JsonValue)
  | .obj members => members
  | _ => []

/-! ## JSON writer (QJsonDocument::toJson, default Indented format)

Qt's default serialisation is the *indented* one: four spaces per level,
members on their own lines, a newline after the closing brace of the
top-level object. Keys come out in QJsonObject's sorted order. -/

/-- Lower-case hex digit of a value below 16. -/
def hexDigit (n : Nat) : Char :=
  if n < 10 then Char.ofNat (48 + n) else Char.ofNat (87 + n)

/-- Qt escapedString, one character: escapes quote, backslash and control
characters; everything else is written through. -/
def escapeChar (c : Char) : List Char :=
  if c = '"' then ['\\', '"']
  else if c = '\\' then ['\\', '\\']
  else if c = '\n' then ['\\', 'n']
  else if c = '\r' then ['\\', 'r']
  else if c = '\t' then ['\\', 't']
  else if c = Char.ofNat 8 then ['\\', 'b']
  else if c = Char.ofNat 12 then ['\\', 'f']
  else if c.toNat < 32 then ['\\', 'u', '0', '0', hexDigit (c.toNat / 16), hexDigit (c.toNat % 16)]
  else [c]

def escapeChars : List Char → List Char
  | [] => []
  | c :: cs => escapeChar c ++ escapeChars cs

def escapedString (s : String) : String :=
  String.mk (escapeChars s.toList)

/-- Four spaces per indentation level. -/
def indentString (n : Nat) : String :=
  String.mk (List.replicate (4 * n) ' ')

mutual

/-- Qt Writer::valueToJson for the Indented format. -/
def valueToJson : JsonValue → Nat → String
  | .bool b, _ => if b then "true" else "false"
  | .num n, _ => toString n
  | .str s, _ => "\"" ++ escapedString s ++ "\""
  | .obj members, indent =>
    "\x7b\n" ++ objectContentToJson members (indent + 1) ++ indentString indent ++ "\x7d"
  | .null, _ => "null"
  | .undefined, _ => "null"

/-- Qt Writer::objectContentToJson: nothing for an empty object, otherwise
the member lines followed by a newline. -/
def objectContentToJson (members : List (String × JsonValue)) (indent : Nat) : String :=
  match members with
  | [] => ""
  | m :: rest => memberToJson m indent ++ membersTailToJson rest indent ++ "\n"

def memberToJson (m : String × JsonValue) (indent : Nat) : String :=
  indentString indent ++ "\"" ++ escapedString m.fst ++ "\": " ++ valueToJson m.snd indent

def membersTailToJson (members : List (String × JsonValue)) (indent : Nat) : String :=
  match members with
  | [] => ""
  | m :: rest => ",\n" ++ memberToJson m indent ++ membersTailToJson rest indent

end

/-- QJsonDocument(obj).toJson(): top-level object in the Indented format,
ending in a newline after the closing brace. -/
def toJsonIndented (members : List (String × JsonValue)) : String :=
  "\x7b\n" ++ objectContentToJson members 1 ++ "\x7d\n"

/-! ## JSON parser (QJsonDocument::fromJson)

Recursive-descent parser over the character list, with a fuel argument
bounding the recursion through nested values. The subset parsed matches the
values this file serialises and receives: null, true/false, integers,
strings with the common escapes, and objects. A document whose top level is
not an object, or that fails to parse, yields the empty object through
QJsonDocument::object(), exactly as Qt's error path does. -/

def isWs (c : Char) : Bool :=
  c = ' ' || c = '\t' || c = '\n' || c = '\r'

def skipWs : List Char → List Char
  | [] => []
  | c :: cs => if isWs c then skipWs cs else c :: cs

/-- Value of a hexadecimal digit. -/
def hexVal (c : Char) : Option Nat :=
  if 48 ≤ c.toNat ∧ c.toNat ≤ 57 then some (c.toNat - 48)
  else if 97 ≤ c.toNat ∧ c.toNat ≤ 102 then some (c.toNat - 87)
  else if 65 ≤ c.toNat ∧ c.toNat ≤ 70 then some (c.toNat - 55)
  else none

/-- Single-character escapes accepted after a backslash. -/
def unescapeChar (c : Char) : Option Char :=
  if c = '"' then some '"'
  else if c = '\\' then some '\\'
  else if c = '/' then some '/'
  else if c = 'n' then some '\n'
  else if c = 'r' then some '\r'
  else if c = 't' then some '\t'
  else if c = 'b' then some (Char.ofNat 8)
  else if c = 'f' then some (Char.ofNat 12)
  else none

/-- Parses the body of a string literal after the opening quote, up to and
including the closing quote; returns the decoded characters and the rest. -/
def parseStringBody : List Char → Option (List Char × List Char)
  | [] => none
  | c :: cs =>
    if c = '"' then some ([], cs)
    else if c = '\\' then
      match cs with
      | 'u' :: h1 :: h2 :: h3 :: h4 :: rest =>
        match hexVal h1, hexVal h2, hexVal h3, hexVal h4 with
        | some a, some b, some x, some d =>
          (parseStringBody rest).map fun p =>
            (Char.ofNat (((a * 16 + b) * 16 + x) * 16 + d) :: p.1, p.2)
        | _, _, _, _ => none
      | d :: rest =>
        match unescapeChar d with
        | some e => (parseStringBody rest).map fun p => (e :: p.1, p.2)
        | none => none
      | [] => none
    else (parseStringBody cs).map fun p => (c :: p.1, p.2)

def takeDigits : List Char → List Char × List Char
  | [] => ([], [])
  | c :: cs =>
    if c.isDigit then
      let p := takeDigits cs
      (c :: p.1, p.2)
    else ([], c :: cs)

def digitsToNat (ds : List Char) : Nat :=
  ds.foldl (fun acc c => acc * 10 + (c.toNat - 48)) 0

/-- Parses an integer literal (the only numbers this program exchanges). -/
def parseNumber : List Char → Option (JsonValue × List Char)
  | '-' :: cs =>
    match takeDigits cs with
    | ([], _) => none
    | (ds, rest) => some (.num (-(digitsToNat ds : Int)), rest)
  | cs =>
    match takeDigits cs with
    | ([], _) => none
    | (ds, rest) => some (.num (digitsToNat ds : Int), rest)

/-- Builds a QJsonObject from members in textual order: each member is
inserted in turn, so a later duplicate key overwrites an earlier one. -/
def buildObject (ms : List (String × JsonValue)) : List (String × JsonValue) :=
  ms.foldl (fun acc kv => jsonInsert kv.fst kv.snd acc) []

/-- Consumes an expected literal character sequence. -/
def expectChars (pat : List Char) (cs : List Char) : Option (List Char) :=
  if pat.isPrefixOf cs then some (cs.drop pat.length) else none

mutual

def parseValue : Nat → List Char → Option (JsonValue × List Char)
  | 0, _ => none
  | fuel + 1, cs =>
    match skipWs cs with
    | [] => none
    | c :: rest =>
      if c = '"' then
        (parseStringBody rest).map fun p => (.str (String.mk p.1), p.2)
      else if c = '\x7b' then
        (parseObjectBody fuel rest).map fun p => (.obj (buildObject p.1), p.2)
      else if c = 'n' then
        (expectChars ['u', 'l', 'l'] rest).map fun r => (.null, r)
      else if c = 't' then
        (expectChars ['r', 'u', 'e'] rest).map fun r => (.bool true, r)
      else if c = 'f' then
        (expectChars ['a', 'l', 's', 'e'] rest).map fun r => (.bool false, r)
      else parseNumber (c :: rest)

/-- Parses object members after the opening brace, in textual order. -/
def parseObjectBody : Nat → List Char → Option (List (String × JsonValue) × List Char)
  | 0, _ => none
  | fuel + 1, cs =>
    match skipWs cs with
    | [] => none
    | c :: rest =>
      if c = '\x7d' then some ([], rest)
      else
        match parseMember fuel (c :: rest) with
        | none => none
        | some (kv, rest₁) =>
          (parseMembersTail fuel rest₁).map fun p => (kv :: p.1, p.2)

def parseMember : Nat → List Char → Option ((String × JsonValue) × List Char)
  | 0, _ => none
  | fuel + 1, cs =>
    match skipWs cs with
    | [] => none
    | c :: rest =>
      if c = '"' then
        match parseStringBody rest with
        | none => none
        | some (k, rest₁) =>
          match skipWs rest₁ with
          | [] => none
          | d :: rest₂ =>
            if d = ':' then
              (parseValue fuel rest₂).map fun p => ((String.mk k, p.1), p.2)
            else none
      else none

def parseMembersTail : Nat → List Char → Option (List (String × JsonValue) × List Char)
  | 0, _ => none
  | fuel + 1, cs =>
    match skipWs cs with
    | [] => none
    | c :: rest =>
      if c = '\x7d' then some ([], rest)
      else if c = ',' then
        match parseMember fuel rest with
        | none => none
        | some (kv, rest₁) =>
          (parseMembersTail fuel rest₁).map fun p => (kv :: p.1, p.2)
      else none

end

/-- QJsonDocument::fromJson followed by QJsonDocument::object(): a document
that parses to a top-level object with nothing but whitespace after it
yields that object; every error path yields the empty object. -/
def fromJsonObject (s : String) : List (String × JsonValue) :=
  match parseValue (s.toList.length + 2) s.toList with
  | some (.obj members, rest) => if (skipWs rest).isEmpty then members else []
  | _ => []

/-! ## Helpers from the source's anonymous namespace
(qemu_virtual_machine.cpp lines 53-164) -/

def latest_vm_command_version : Int := 1

def suspend_tag : String := "suspend"

def default_machine_type : String := "pc-i440fx-xenial"

def vm_command_version_key : String := "vm_command_version"

def machine_type_key : String := "machine_type"

/-- get_vm_command_version: the stored version when present, otherwise 1
when the legacy use_cdrom flag is present and true, otherwise 0. -/
def get_vm_command_version (metadata : List (String × JsonValue)) : Int :=
  if jsonContains metadata vm_command_version_key then
    (jsonGet metadata vm_command_version_key).toInt
  else if jsonContains metadata "use_cdrom" && (jsonGet metadata "use_cdrom").toBool then
    1
  else
    0

/-- qmp_execute_json: serialises the object with a single "execute" member
through QJsonDocument::toJson (default Indented format). -/
def qmp_execute_json (cmd : String) : String :=
  toJsonIndented (jsonInsert "execute" (.str cmd) [])

/-- hmc_to_qmp_json: re-parses the encoded human-monitor-command, inserts
the arguments object carrying the command line, and serialises again. -/
def hmc_to_qmp_json (command_line : String) : String :=
  let qmp := fromJsonObject (qmp_execute_json "human-monitor-command")
  let cmd_line := jsonInsert "command-line" (.str command_line) []
  toJsonIndented (jsonInsert "arguments" (.obj cmd_line) qmp)

/-- Splits on a separator character keeping empty parts, as
QString::split does. -/
def splitOnChar (sep : Char) : List Char → List (List Char)
  | [] => [[]]
  | c :: cs =>
    match splitOnChar sep cs with
    | [] => [[c]]
    | p :: ps => if c = sep then [] :: p :: ps else (c :: p) :: ps

/-- QString::split('\n') on a string. -/
def splitLines (s : String) : List String :=
  (splitOnChar '\n' s.toList).map String.mk

/-- Scans a list for an occurrence of the needle at any position. -/
def infixScan (needle : List Char) : List Char → Bool
  | [] => needle.isEmpty
  | c :: cs => needle.isPrefixOf (c :: cs) || infixScan needle cs

/-- QString::contains, as substring containment on the character lists. -/
def strContains (hay needle : String) : Bool :=
  infixScan needle.toList hay.toList

/-- instance_image_has_snapshot, applied to the captured output of
`qemu-img snapshot -l <image>` (the process run is the environment's): the
output is split on newlines and scanned for a line containing the suspend
tag. -/
def instance_image_has_snapshot (qemu_img_output : String) : Bool :=
  (splitLines qemu_img_output).any fun line => strContains line suspend_tag

/-- generate_metadata, with the probed machine type (the output of the
`qemu-system-<arch> -dump-vmstate` probe) supplied by the environment:
inserts the machine type, then the latest command version. -/
def generate_metadata (machine_type : String) : List (String × JsonValue) :=
  jsonInsert vm_command_version_key (.num latest_vm_command_version)
    (jsonInsert machine_type_key (.str machine_type) [])

/-! ## VM lifecycle state machine (QemuVirtualMachine)

The controller is embedded as pure functions from a state record to a new
state record paired with a trace of observable effects. The record's
`vm_process_running` field is the oracle for `vm_process->running()` at the
moment the operation queries it; results of external calls
(`wait_for_started`, retrieved metadata, the machine-type probe, process
output chunks) enter as arguments. -/

inductive State where
  | off
  | starting
  | restarting
  | running
  | delayed_shutdown
  | suspending
  | suspended
  | unknown
deriving Repr, DecidableEq

/-- The controller's mutable data. The class header is not among the
sources; the member list and the initial values (no cached ip,
update_shutdown_status true, delete_memory_snapshot false) follow the
spec's data model for C8. -/
structure VmState where
  vm_name : String
  cloud_init_path : String
  state : State
  ip : Option String
  saved_error_msg : String
  update_shutdown_status : Bool
  delete_memory_snapshot : Bool
  vm_process_running : Bool
deriving Repr, DecidableEq

/-- Observable effects of an operation, in the order they are performed. -/
inductive Event where
  | startProcess (vm_command_version : Int) (extra_args : List String)
  | writeProcess (bytes : String)
  | killProcess
  | waitForFinished
  | waitForStateOff
  | notifyStateWait
  | persistState (s : State)
  | monitorOnResume
  | monitorOnRestart (name : String)
  | monitorOnSuspend
  | monitorOnShutdown
  | updateMetadata (machine_type : String)
  | logMsg (msg : String)
deriving Repr, DecidableEq

/-- update_state: persists the current state through the monitor. -/
def update_state (vm : VmState) : List Event :=
  [.persistState vm.state]

/-- on_started: state becomes starting, persisted, monitor resumed. -/
def on_started (vm : VmState) : VmState × List Event :=
  let vm₁ := { vm with state := .starting }
  (vm₁, update_state vm₁ ++ [.monitorOnResume])

/-- on_error: state becomes off and is persisted; nothing else changes. -/
def on_error (vm : VmState) : VmState × List Event :=
  let vm₁ := { vm with state := .off }
  (vm₁, update_state vm₁)

/-- on_shutdown: under the state mutex, a shutdown racing a start records
the error message and blocks on the condition variable until the state is
off (the notifier is ensure_vm_is_running, which stores off before
notifying); otherwise the state is set to off directly. In both branches
the cached ip is dropped, the off state persisted and the monitor told. The
starting branch's resulting state is off because that is the wait's
predicate at wake-up. -/
def on_shutdown (vm : VmState) : VmState × List Event :=
  if vm.state = .starting then
    let vm₁ := { vm with
      saved_error_msg := vm.vm_name ++ ": shutdown called while starting",
      state := .off, ip := none }
    (vm₁, [.logMsg "EH??\n", .waitForStateOff] ++ update_state vm₁ ++ [.monitorOnShutdown])
  else
    let vm₁ := { vm with state := .off, ip := none }
    (vm₁, update_state vm₁ ++ [.monitorOnShutdown])

/-- on_suspend: state becomes suspended and the monitor is told; the state
is not persisted here. -/
def on_suspend (vm : VmState) : VmState × List Event :=
  ({ vm with state := .suspended }, [.monitorOnSuspend])

/-- on_restart: state becomes restarting and is persisted, the cached ip is
dropped, and the monitor is told the name. -/
def on_restart (vm : VmState) : VmState × List Event :=
  let vm₁ := { vm with state := .restarting }
  let vm₂ := { vm₁ with ip := none }
  (vm₂, update_state vm₁ ++ [.monitorOnRestart vm.vm_name])

/-- ensure_vm_is_running: under the state mutex, a dead child forces the
state to off, wakes the condition variable and throws
StartException(vm_name, saved_error_msg), returned here as the final
component. -/
def ensure_vm_is_running (vm : VmState) : VmState × List Event × Option (String × String) :=
  if vm.vm_process_running then (vm, [], none)
  else ({ vm with state := .off }, [.notifyStateWait],
    some (vm.vm_name, vm.saved_error_msg))

/-- shutdown: a suspended VM only logs; a live child in running,
delayed_shutdown or unknown receives QMP system_powerdown and is awaited;
otherwise the child is killed and awaited, a racing start first losing its
claim to report the exit (update_shutdown_status := false). -/
def shutdown (vm : VmState) : VmState × List Event :=
  if vm.state = .suspended then
    (vm, [.logMsg "Ignoring shutdown issued while suspended"])
  else if (vm.state = .running ∨ vm.state = .delayed_shutdown ∨ vm.state = .unknown)
      ∧ vm.vm_process_running then
    (vm, [.writeProcess (qmp_execute_json "system_powerdown"), .waitForFinished])
  else
    (if vm.state = .starting then { vm with update_shutdown_status := false } else vm,
     [.killProcess, .waitForFinished])

/-- stop simply delegates to shutdown. -/
def stop (vm : VmState) : VmState × List Event :=
  shutdown vm

/-- current_state returns the state field. -/
def current_state (vm : VmState) : State :=
  vm.state

/-- ssh_port returns the constant 22. -/
def ssh_port (_vm : VmState) : Int :=
  22

/-- start. A running VM is a no-op; a suspending VM throws. Resuming from
suspended reads the stored metadata (passed in, as
monitor->retrieve_metadata_for's result) to pick the command version, the
machine type (defaulting when the stored value is not a string) and the
cloud-init argument form, and raises update_shutdown_status and
delete_memory_snapshot; any other state writes fresh metadata from the
probed machine type. The child is then spawned with the chosen version and
extra arguments; a spawn failure (wait_for_started returning false) throws,
and a successful spawn is followed by the qmp_capabilities handshake. The
error slot of the result carries the thrown message. -/
def start (vm : VmState) (metadata : List (String × JsonValue))
    (machine_type_probe : String) (spawn_ok : Bool) :
    VmState × List Event × Option String :=
  if vm.state = .running then (vm, [], none)
  else if vm.state = .suspending then
    (vm, [], some "cannot start the instance while suspending")
  else if vm.state = .suspended then
    let vm_command_version := get_vm_command_version metadata
    let machine_type :=
      match jsonGet metadata machine_type_key with
      | .str s => s
      | _ => default_machine_type
    let extra_args :=
      ["-loadvm", suspend_tag, "-machine", machine_type] ++
      (if (jsonGet metadata "use_cdrom").toBool then
        ["-cdrom", vm.cloud_init_path]
      else
        ["-drive",
         "file=" ++ vm.cloud_init_path ++ ",if=virtio,format=raw,snapshot=off,read-only"])
    let vm₁ := { vm with update_shutdown_status := true, delete_memory_snapshot := true }
    if spawn_ok then
      (vm₁,
       [.logMsg "Resuming from a suspended state",
        .startProcess vm_command_version extra_args,
        .writeProcess (qmp_execute_json "qmp_capabilities")], none)
    else
      (vm₁,
       [.logMsg "Resuming from a suspended state",
        .startProcess vm_command_version extra_args],
       some "failed to start qemu instance")
  else
    if spawn_ok then
      (vm,
       [.updateMetadata machine_type_probe,
        .startProcess latest_vm_command_version [],
        .writeProcess (qmp_execute_json "qmp_capabilities")], none)
    else
      (vm,
       [.updateMetadata machine_type_probe,
        .startProcess latest_vm_command_version []],
       some "failed to start qemu instance")

/-- The constructor: the initial state is suspended or off according to the
suspend snapshot scan of the image (the captured `qemu-img snapshot -l`
output is passed in), and construction fails when the image or the
cloud-init ISO is missing. -/
def construct (vm_name cloud_init_path qemu_img_output : String)
    (image_exists cloud_init_exists : Bool) : Except String VmState :=
  let initial : State :=
    if instance_image_has_snapshot qemu_img_output then .suspended else .off
  if !image_exists || !cloud_init_exists then
    .error "cannot start VM without an image"
  else
    .ok { vm_name := vm_name, cloud_init_path := cloud_init_path, state := initial,
          ip := none, saved_error_msg := "", update_shutdown_status := true,
          delete_memory_snapshot := false, vm_process_running := false }

/-! ## Signal handlers wired in create_connections -/

/-- The typed QMP events this controller reacts to. -/
inductive QmpEvent where
  | RESET
  | POWERDOWN
  | SHUTDOWN
  | STOP
  | RESUME
deriving Repr, DecidableEq

/-- The stdout handler: the chunk read from the child is split on newlines,
only its first line is parsed, and a non-null event value is compared
against the five known event names; RESET reacts only outside restarting,
RESUME kills the child and suspends only from suspending or running, and
everything else at most logs. -/
def on_ready_read_standard_output (vm : VmState) (qmp_output : String) :
    VmState × List Event :=
  let first_line := (splitLines qmp_output).headD ""
  let qmp_object := fromJsonObject first_line
  let event := jsonGet qmp_object "event"
  if event.isNull then (vm, [])
  else if event.toStr = "RESET" ∧ vm.state ≠ .restarting then
    let p := on_restart vm
    (p.1, .logMsg "VM restarting" :: p.2)
  else if event.toStr = "POWERDOWN" then (vm, [.logMsg "VM powering down"])
  else if event.toStr = "SHUTDOWN" then (vm, [.logMsg "VM shut down"])
  else if event.toStr = "STOP" then (vm, [.logMsg "VM suspending"])
  else if event.toStr = "RESUME" then
    if vm.state = .suspending ∨ vm.state = .running then
      let p := on_suspend { vm with vm_process_running := false }
      (p.1, .logMsg "VM suspended" :: .killProcess :: p.2)
    else (vm, [.logMsg "VM suspended"])
  else (vm, [])

/-- The stderr handler: the chunk becomes the saved error message and is
logged as a warning. -/
def on_ready_read_standard_error (vm : VmState) (chunk : String) :
    VmState × List Event :=
  ({ vm with saved_error_msg := chunk }, [.logMsg chunk])

/-- The error_occurred handler: only when the controller did not itself
initiate the termination is the error logged and on_error run. -/
def on_error_occurred (vm : VmState) (error_name : String) : VmState × List Event :=
  if vm.update_shutdown_status then
    let p := on_error vm
    (p.1, .logMsg ("process error occurred " ++ error_name) :: p.2)
  else (vm, [])

/-- The finished handler: the exit is logged, and on_shutdown runs exactly
when update_shutdown_status is set or the state is starting. -/
def on_finished (vm : VmState) (exitCode : Int) : VmState × List Event :=
  let logLine : Event := .logMsg ("process finished with exit code " ++ toString exitCode)
  if vm.update_shutdown_status ∨ vm.state = .starting then
    let p := on_shutdown vm
    (p.1, logLine :: p.2)
  else (vm, [logLine])

/-! ## Claim-side decode pipeline for the QMP stream

These definitions formalise the specification's reading of the decoder
(spec section 4.1) for comparison with the handler above: a typed event per
recognised event name, applied to each newline-delimited object of a
chunk. -/

/-- The typed event named by an event string; unknown names decode to
nothing. -/
def qmp_event_of_string (s : String) : Option QmpEvent :=
  if s = "RESET" then some .RESET
  else if s = "POWERDOWN" then some .POWERDOWN
  else if s = "SHUTDOWN" then some .SHUTDOWN
  else if s = "STOP" then some .STOP
  else if s = "RESUME" then some .RESUME
  else none

/-- Decodes one line: the typed event of its object's non-null event
value. -/
def decodeQmpLine (line : String) : Option QmpEvent :=
  let event := jsonGet (fromJsonObject line) "event"
  if event.isNull then none else qmp_event_of_string event.toStr

/-- Modelled from the spec: the events of every newline-delimited object of
a chunk, in order — the spec's decoder processes each object, not just the
first. -/
def spec_chunk_events (chunk : String) : List QmpEvent :=
  (splitLines chunk).filterMap decodeQmpLine

/-- The handler's reaction to one decoded typed event, as the spec tables
it: used to factor the handler into decode-then-dispatch. -/
def dispatchQmpEvent (vm : VmState) : Option QmpEvent → VmState × List Event
  | none => (vm, [])
  | some .RESET =>
    if vm.state ≠ .restarting then
      let p := on_restart vm
      (p.1, .logMsg "VM restarting" :: p.2)
    else (vm, [])
  | some .POWERDOWN => (vm, [.logMsg "VM powering down"])
  | some .SHUTDOWN => (vm, [.logMsg "VM shut down"])
  | some .STOP => (vm, [.logMsg "VM suspending"])
  | some .RESUME =>
    if vm.state = .suspending ∨ vm.state = .running then
      let p := on_suspend { vm with vm_process_running := false }
      (p.1, .logMsg "VM suspended" :: .killProcess :: p.2)
    else (vm, [.logMsg "VM suspended"])

/-! ## Concrete instances and claim-side predicates used by the theorems -/

/-- Concrete controller state used for the C1 counterexample. -/
def c1vm : VmState :=
  { vm_name := "vm1", cloud_init_path := "/data/cloud-init.iso", state := .running,
    ip := some "10.122.0.5", saved_error_msg := "", update_shutdown_status := true,
    delete_memory_snapshot := false, vm_process_running := true }

/-- Concrete states used by the C4 witness. -/
def c4vmSuspended : VmState :=
  { vm_name := "vm4", cloud_init_path := "/iso", state := .suspended, ip := none,
    saved_error_msg := "", update_shutdown_status := true,
    delete_memory_snapshot := false, vm_process_running := false }

def c4vmRunning : VmState :=
  { c4vmSuspended with state := .running, vm_process_running := true }

def c4vmStarting : VmState :=
  { c4vmSuspended with state := .starting, vm_process_running := true }

/-- Output of the snapshot listing used by the C8 witness. -/
def c8out : String := "ID TAG VM-SIZE\n1 suspend 228M"

/-- Concrete suspending-state controller used against C9's quoted error
message. -/
def c9vmSuspending : VmState :=
  { vm_name := "vm9", cloud_init_path := "/iso", state := .suspending, ip := none,
    saved_error_msg := "", update_shutdown_status := true,
    delete_memory_snapshot := false, vm_process_running := true }

/-- Concrete off-state controller for the C9 witness's spawn-failure leg. -/
def c9vmOff : VmState :=
  { c9vmSuspending with state := .off, vm_process_running := false }

/-- Concrete running-state controller for the C9 witness's no-op leg. -/
def c9vmRunning : VmState :=
  { c9vmSuspending with state := .running }

/-- Concrete states for the C3 witness. -/
def c3vmStarting : VmState :=
  { vm_name := "vm3", cloud_init_path := "/iso", state := .starting, ip := some "10.0.0.9",
    saved_error_msg := "", update_shutdown_status := true,
    delete_memory_snapshot := false, vm_process_running := false }

/-- Concrete running controller receiving a RESUME event. -/
def c5vm : VmState :=
  { vm_name := "vm5", cloud_init_path := "/iso", state := .running, ip := some "10.5.5.5",
    saved_error_msg := "", update_shutdown_status := true,
    delete_memory_snapshot := false, vm_process_running := true }

/-- QMP chunk carrying a RESUME event. -/
def c5chunk : String := "\x7b\"event\": \"RESUME\"\x7d"

/-- Concrete running controller for the C2 counterexample. -/
def c2vm : VmState :=
  { vm_name := "test-vm", cloud_init_path := "/iso", state := .running, ip := none,
    saved_error_msg := "", update_shutdown_status := true,
    delete_memory_snapshot := false, vm_process_running := true }

/-- Chunk carrying two newline-delimited event objects. -/
def c2chunk : String := "\x7b\"event\": \"STOP\"\x7d\n\x7b\"event\": \"RESET\"\x7d"

/-- A character that the JSON writer passes through unescaped and that the
string-literal parser consumes verbatim: printable, not the quote, not the
backslash. -/
def plainChar (c : Char) : Bool :=
  decide (32 ≤ c.toNat) && !(c = '"') && !(c = '\\')

/-- A string of plain characters, covering every QMP command name and
monitor command line this program sends. -/
def plainString (s : String) : Bool :=
  s.toList.all plainChar

/-- Formalisation of the claim's single-line output shape: no newline
occurs before the final character. -/
def isSingleLine (s : String) : Bool :=
  s.toList.dropLast.all fun c => !(c = '\n')

/-! ## Shared lemmas -/

/-- A lookup returning something other than Undefined implies the key is
present. -/
lemma jsonContains_of_get {m : List (String × JsonValue)} {k : String} {v : JsonValue}
    (hv : jsonGet m k = v) (hne : v ≠ JsonValue.undefined) : jsonContains m k = true := by
  unfold jsonGet at hv
  unfold jsonContains
  rcases hfind : List.find? (fun mem => mem.fst == k) m with _ | mem
  · rw [hfind] at hv
    exact absurd hv.symm hne
  · rw [List.any_eq_true]
    exact ⟨mem, List.mem_of_find?_eq_some hfind,
      @List.find?_some _ (fun mem => mem.fst == k) mem m hfind⟩

/-- Boolean list prefix test, characterised by an append decomposition. -/
lemma isPrefixOf_iff_append : ∀ (p l : List Char),
    p.isPrefixOf l = true ↔ ∃ t, l = p ++ t := by
  intro p
  induction p with
  | nil =>
    intro l
    constructor
    · intro
      exact ⟨l, rfl⟩
    · intro
      simp [List.isPrefixOf]
  | cons a as ih =>
    intro l
    cases l with
    | nil => simp [List.isPrefixOf]
    | cons b bs =>
      simp only [List.isPrefixOf, Bool.and_eq_true, beq_iff_eq, ih bs, List.cons_append,
        List.cons.injEq]
      constructor
      · rintro ⟨rfl, t, rfl⟩
        exact ⟨t, rfl, rfl⟩
      · rintro ⟨t, rfl, rfl⟩
        exact ⟨rfl, t, rfl⟩

/-- The substring scan succeeds exactly when the needle occurs somewhere. -/
lemma infixScan_iff_append (needle : List Char) : ∀ l : List Char,
    infixScan needle l = true ↔ ∃ l₁ l₂, l = l₁ ++ needle ++ l₂ := by
  intro l
  induction l with
  | nil =>
    simp only [infixScan, List.isEmpty_iff]
    constructor
    · rintro rfl
      exact ⟨[], [], rfl⟩
    · rintro ⟨l₁, l₂, h⟩
      rcases List.append_eq_nil.mp h.symm with ⟨h₁, h₂⟩
      exact (List.append_eq_nil.mp h₁).2
  | cons c cs ih =>
    simp only [infixScan, Bool.or_eq_true, isPrefixOf_iff_append, ih]
    constructor
    · rintro (⟨t, ht⟩ | ⟨l₁, l₂, h⟩)
      · exact ⟨[], t, by simpa using ht⟩
      · exact ⟨c :: l₁, l₂, by simp [h]⟩
    · rintro ⟨l₁, l₂, h⟩
      cases l₁ with
      | nil => exact Or.inl ⟨l₂, by simpa using h⟩
      | cons x l₁ =>
        rcases List.cons.injEq .. ▸ h with ⟨rfl, h₂⟩
        exact Or.inr ⟨l₁, l₂, by simpa using h₂⟩

/-- QString::contains, characterised by an append decomposition of the
character list. -/
lemma strContains_iff_append (hay needle : String) :
    strContains hay needle = true ↔ ∃ l₁ l₂, hay.toList = l₁ ++ needle.toList ++ l₂ :=
  infixScan_iff_append needle.toList hay.toList

/-! ## Claim C1 -/

/-- C1 counterexample: on_error performs a transition of state into off and
yet the cached ipv4 address is not cleared, so it is not the case that
ipv4 is empty after every transition into off. -/
theorem c1_on_error_keeps_ip :
    (on_error c1vm).1.state = State.off ∧ (on_error c1vm).1.ip ≠ none := by
  exact ⟨rfl, by decide⟩

/-- C1 (amended): among the lifecycle handlers, on_restart and on_shutdown
clear the cached ipv4 on their transitions into restarting and off, while
on_error and ensure_vm_is_running (on a dead child) transition state into
off leaving the cached ipv4 untouched. -/
theorem c1_ip_on_entering_off_or_restarting (vm : VmState) :
    ((on_restart vm).1.state = State.restarting ∧ (on_restart vm).1.ip = none) ∧
    ((on_shutdown vm).1.state = State.off ∧ (on_shutdown vm).1.ip = none) ∧
    ((on_error vm).1.state = State.off ∧ (on_error vm).1.ip = vm.ip) ∧
    ((ensure_vm_is_running { vm with vm_process_running := false }).1.state = State.off ∧
      (ensure_vm_is_running { vm with vm_process_running := false }).1.ip = vm.ip) := by
  refine ⟨⟨rfl, rfl⟩, ?_, ⟨rfl, rfl⟩, ⟨rfl, rfl⟩⟩
  by_cases h : vm.state = State.starting <;> simp [on_shutdown, h]

/-! ## Claim C4 -/

/-- C4: shutdown's case split. A suspended VM only logs; otherwise a live
child in running, delayed_shutdown or unknown gets the QMP system_powerdown
write followed by a wait; otherwise the child is killed and awaited, with
update_shutdown_status dropped first when the state is starting. -/
theorem c4_shutdown_cases (vm : VmState) :
    (vm.state = State.suspended →
      shutdown vm = (vm, [.logMsg "Ignoring shutdown issued while suspended"])) ∧
    (vm.state ≠ State.suspended →
      (vm.state = State.running ∨ vm.state = State.delayed_shutdown ∨
        vm.state = State.unknown) →
      vm.vm_process_running = true →
      shutdown vm =
        (vm, [.writeProcess (qmp_execute_json "system_powerdown"), .waitForFinished])) ∧
    (vm.state ≠ State.suspended →
      ¬((vm.state = State.running ∨ vm.state = State.delayed_shutdown ∨
          vm.state = State.unknown) ∧ vm.vm_process_running = true) →
      shutdown vm =
        ((if vm.state = State.starting then { vm with update_shutdown_status := false }
          else vm),
         [.killProcess, .waitForFinished])) := by
  refine ⟨fun h => by simp [shutdown, h], fun h hs hr => ?_, fun h hn => ?_⟩
  · simp [shutdown, h, hs, hr]
  · rw [shutdown, if_neg h, if_neg (by simpa using hn)]

/-- C4 witness: the three branches at concrete states. -/
theorem c4_shutdown_cases_witness :
    shutdown c4vmSuspended =
      (c4vmSuspended, [.logMsg "Ignoring shutdown issued while suspended"]) ∧
    shutdown c4vmRunning =
      (c4vmRunning, [.writeProcess (qmp_execute_json "system_powerdown"), .waitForFinished]) ∧
    shutdown c4vmStarting =
      ({ c4vmStarting with update_shutdown_status := false },
        [.killProcess, .waitForFinished]) := by
  refine ⟨(c4_shutdown_cases c4vmSuspended).1 rfl,
    (c4_shutdown_cases c4vmRunning).2.1 (by decide) (Or.inl rfl) rfl, ?_⟩
  have h := (c4_shutdown_cases c4vmStarting).2.2 (by decide) (by decide)
  simpa using h

/-! ## Claim C6 -/

/-- C6: the command-version reading policy. A stored numeric
vm_command_version is returned as-is; with that key absent, a use_cdrom
entry holding true yields 1, and every other shape yields 0. -/
theorem c6_get_vm_command_version (m : List (String × JsonValue)) (n : Int) :
    (jsonGet m vm_command_version_key = .num n → get_vm_command_version m = n) ∧
    (jsonContains m vm_command_version_key = false →
      jsonGet m "use_cdrom" = .bool true → get_vm_command_version m = 1) ∧
    (jsonContains m vm_command_version_key = false →
      (jsonContains m "use_cdrom" && (jsonGet m "use_cdrom").toBool) = false →
      get_vm_command_version m = 0) := by
  refine ⟨fun h => ?_, fun hc h => ?_, fun hc hb => ?_⟩
  · have hcont := jsonContains_of_get h (by simp)
    simp [get_vm_command_version, hcont, h, JsonValue.toInt]
  · have hcb := jsonContains_of_get h (by simp)
    simp [get_vm_command_version, hc, hcb, h, JsonValue.toBool]
  · simp [get_vm_command_version, hc, hb]

/-- C6 witness: the three reading cases on concrete metadata, including the
object produced by generate_metadata. -/
theorem c6_get_vm_command_version_witness :
    get_vm_command_version (generate_metadata "pc-i440fx-xenial") = 1 ∧
    get_vm_command_version [("use_cdrom", .bool true)] = 1 ∧
    get_vm_command_version [("machine_type", .str "pc")] = 0 := by
  refine ⟨(c6_get_vm_command_version (generate_metadata "pc-i440fx-xenial") 1).1 rfl,
    (c6_get_vm_command_version [("use_cdrom", .bool true)] 1).2.1 rfl rfl,
    (c6_get_vm_command_version [("machine_type", .str "pc")] 1).2.2 rfl rfl⟩

/-! ## Claim C8 -/

/-- C8: with both files present construction succeeds, and the initial
state is suspended exactly when the captured `qemu-img snapshot -l` output
has a line containing the suspend tag, otherwise off. -/
theorem c8_initial_state (name cp out : String) :
    ∃ vm, construct name cp out true true = Except.ok vm ∧
      (vm.state = State.suspended ↔
        ∃ line ∈ splitLines out,
          ∃ l₁ l₂, line.toList = l₁ ++ suspend_tag.toList ++ l₂) ∧
      ((¬ ∃ line ∈ splitLines out,
          ∃ l₁ l₂, line.toList = l₁ ++ suspend_tag.toList ++ l₂) →
        vm.state = State.off) := by
  have hiff : instance_image_has_snapshot out = true ↔
      ∃ line ∈ splitLines out,
        ∃ l₁ l₂, line.toList = l₁ ++ suspend_tag.toList ++ l₂ := by
    unfold instance_image_has_snapshot
    rw [List.any_eq_true]
    constructor
    · rintro ⟨line, hmem, hc⟩
      exact ⟨line, hmem, (strContains_iff_append line suspend_tag).mp hc⟩
    · rintro ⟨line, hmem, h⟩
      exact ⟨line, hmem, (strContains_iff_append line suspend_tag).mpr h⟩
  rcases Bool.eq_false_or_eq_true (instance_image_has_snapshot out) with h | h
  · apply Exists.intro (VmState.mk name cp State.suspended none "" true false false)
    refine ⟨by simp [construct, h], iff_of_true rfl (hiff.mp h), fun he => ?_⟩
    exact absurd (hiff.mp h) he
  · apply Exists.intro (VmState.mk name cp State.off none "" true false false)
    refine ⟨by simp [construct, h], ?_, fun _ => rfl⟩
    refine iff_of_false (by simp) fun he => ?_
    rw [hiff.mpr he] at h
    cases h

/-- C8 witness: a listing with a suspend line makes the initial state
suspended. -/
theorem c8_initial_state_witness :
    ∃ vm, construct "vm8" "/iso" c8out true true = Except.ok vm ∧
      vm.state = State.suspended := by
  obtain ⟨vm, h1, h2, _⟩ := c8_initial_state "vm8" "/iso" c8out
  refine ⟨vm, h1, h2.mpr ⟨"1 suspend 228M", by decide, "1 ".toList, " 228M".toList, by decide⟩⟩

/-! ## Claim C9 -/

/-- C9 counterexample: starting while suspending fails with the message
"cannot start the instance while suspending", which is not the claim's
quoted text "cannot start while suspending". -/
theorem c9_start_message_counterexample :
    (start c9vmSuspending [] "" true).2.2 =
      some "cannot start the instance while suspending" ∧
    (start c9vmSuspending [] "" true).2.2 ≠ some "cannot start while suspending" := by
  exact ⟨rfl, by decide⟩

/-- C9 (amended): start is a no-op when running, fails with "cannot start
the instance while suspending" when suspending, and fails with "failed to
start qemu instance" when the child does not spawn. -/
theorem c9_start_errors (vm : VmState) (metadata : List (String × JsonValue))
    (mt : String) (spawn_ok : Bool) :
    (vm.state = State.running → start vm metadata mt spawn_ok = (vm, [], none)) ∧
    (vm.state = State.suspending →
      (start vm metadata mt spawn_ok).2.2 =
        some "cannot start the instance while suspending") ∧
    (vm.state ≠ State.running → vm.state ≠ State.suspending → spawn_ok = false →
      (start vm metadata mt spawn_ok).2.2 = some "failed to start qemu instance") := by
  refine ⟨fun h => by simp [start, h], fun h => by simp [start, h], fun h1 h2 h3 => ?_⟩
  subst h3
  by_cases hs : vm.state = State.suspended <;> simp [start, h1, h2, hs]

/-- C9 witness: the three legs at concrete states. -/
theorem c9_start_errors_witness :
    start c9vmRunning [] "" true = (c9vmRunning, [], none) ∧
    (start c9vmSuspending [] "" false).2.2 =
      some "cannot start the instance while suspending" ∧
    (start c9vmOff [] "" false).2.2 = some "failed to start qemu instance" := by
  exact ⟨(c9_start_errors c9vmRunning [] "" true).1 rfl,
    (c9_start_errors c9vmSuspending [] "" false).2.1 rfl,
    (c9_start_errors c9vmOff [] "" false).2.2 (by decide) (by decide) rfl⟩

/-! ## Claim C10 -/

/-- C10: construction fails with "cannot start VM without an image" exactly
when the image or the cloud-init ISO is missing, so a VM object exists only
with both files present. -/
theorem c10_construct_requires_files (name cp out : String) (img iso : Bool) :
    (construct name cp out img iso = Except.error "cannot start VM without an image" ↔
      (img = false ∨ iso = false)) ∧
    ((∃ vm, construct name cp out img iso = Except.ok vm) ↔ (img = true ∧ iso = true)) := by
  cases img <;> cases iso <;> simp [construct]

/-! ## Claim C3 -/

/-- C3: the finished handler runs on_shutdown exactly when
update_shutdown_status holds or the state is starting; on_shutdown in the
starting case records the shutdown-while-starting message and blocks until
the state is off, otherwise sets the state off directly; and in all cases
it ends with no cached ip, the off state persisted and then the monitor's
on_shutdown callback. -/
theorem c3_finished_runs_on_shutdown (vm : VmState) (exitCode : Int) :
    ((Event.monitorOnShutdown ∈ (on_finished vm exitCode).2) ↔
      (vm.update_shutdown_status = true ∨ vm.state = State.starting)) ∧
    ((vm.update_shutdown_status = true ∨ vm.state = State.starting) →
      on_finished vm exitCode =
        ((on_shutdown vm).1,
          .logMsg ("process finished with exit code " ++ toString exitCode) ::
            (on_shutdown vm).2)) ∧
    (vm.state = State.starting →
      (on_shutdown vm).1.saved_error_msg =
        vm.vm_name ++ ": shutdown called while starting" ∧
      Event.waitForStateOff ∈ (on_shutdown vm).2 ∧
      (on_shutdown vm).1.state = State.off) ∧
    (vm.state ≠ State.starting → (on_shutdown vm).1.state = State.off) ∧
    ((on_shutdown vm).1.ip = none ∧
      ∃ pre, (on_shutdown vm).2 =
        pre ++ [Event.persistState State.off, Event.monitorOnShutdown]) := by
  by_cases hs : vm.state = State.starting
  · refine ⟨?_, fun _ => ?_, fun _ => ?_, fun hn => absurd hs hn, ?_, ?_⟩
    · simp [on_finished, on_shutdown, hs, update_state]
    · simp [on_finished, hs]
    · simp [on_shutdown, hs, update_state]
    · simp [on_shutdown, hs]
    · exact ⟨[.logMsg "EH??\n", .waitForStateOff], by simp [on_shutdown, hs, update_state]⟩
  · by_cases hu : vm.update_shutdown_status = true
    · refine ⟨?_, fun _ => ?_, fun h => absurd h hs, fun _ => ?_, ?_, ?_⟩
      · simp [on_finished, on_shutdown, hs, hu, update_state]
      · simp [on_finished, hs, hu]
      · simp [on_shutdown, hs]
      · simp [on_shutdown, hs]
      · exact ⟨[], by simp [on_shutdown, hs, update_state]⟩
    · have hu' : vm.update_shutdown_status = false := by
        rcases Bool.eq_false_or_eq_true vm.update_shutdown_status with h | h
        · exact absurd h hu
        · exact h
      refine ⟨?_, fun h => ?_, fun h => absurd h hs, fun _ => ?_, ?_, ?_⟩
      · simp [on_finished, hs, hu']
      · rcases h with h | h
        · exact absurd h hu
        · exact absurd h hs
      · simp [on_shutdown, hs]
      · simp [on_shutdown, hs]
      · exact ⟨[], by simp [on_shutdown, hs, update_state]⟩

/-- C3 witness: a starting-state controller whose child finishes records
the racing-shutdown message, waits for off, drops the ip and notifies after
persisting. -/
theorem c3_finished_runs_on_shutdown_witness :
    (Event.monitorOnShutdown ∈ (on_finished c3vmStarting 1).2) ∧
    (on_shutdown c3vmStarting).1.saved_error_msg =
      "vm3: shutdown called while starting" ∧
    Event.waitForStateOff ∈ (on_shutdown c3vmStarting).2 ∧
    (on_shutdown c3vmStarting).1.state = State.off ∧
    (on_shutdown c3vmStarting).1.ip = none := by
  obtain ⟨h1, _, h3, _, h5, _⟩ := c3_finished_runs_on_shutdown c3vmStarting 1
  obtain ⟨hm, hw, ho⟩ := h3 rfl
  exact ⟨h1.mpr (Or.inr rfl), hm, hw, ho, h5⟩

/-! ## Claim C5 -/

/-- C5 counterexample: on a RESUME in running state the child is killed,
the state becomes suspended and the monitor is told, but no persist call is
made — the suspended state is not persisted, contrary to the claim. -/
theorem c5_resume_not_persisted :
    (on_ready_read_standard_output c5vm c5chunk).1.state = State.suspended ∧
    (on_ready_read_standard_output c5vm c5chunk).2 =
      [.logMsg "VM suspended", .killProcess, .monitorOnSuspend] ∧
    Event.persistState State.suspended ∉ (on_ready_read_standard_output c5vm c5chunk).2 := by
  refine ⟨rfl, rfl, ?_⟩
  decide

/-- C5 (amended): a RESUME decoded from the chunk's first object while the
state is suspending or running kills the child, sets the state to
suspended and calls monitor.on_suspend; no persist_state_for call happens on
this path. -/
theorem c5_resume_suspends (vm : VmState) (chunk : String) :
    decodeQmpLine ((splitLines chunk).headD "") = some QmpEvent.RESUME →
    (vm.state = State.suspending ∨ vm.state = State.running) →
    on_ready_read_standard_output vm chunk =
      ({ vm with state := .suspended, vm_process_running := false },
        [.logMsg "VM suspended", .killProcess, .monitorOnSuspend]) := by
  intro hdec hst
  unfold on_ready_read_standard_output
  simp only [decodeQmpLine] at hdec
  set line := (splitLines chunk).headD "" with hline
  rcases hnull : (jsonGet (fromJsonObject line) "event").isNull with _ | _
  · rw [hnull] at hdec
    simp only [Bool.false_eq_true, if_false] at hdec
    have hstr : (jsonGet (fromJsonObject line) "event").toStr = "RESUME" := by
      unfold qmp_event_of_string at hdec
      split_ifs at hdec with h1 h2 h3 h4 h5 <;> simp_all
    simp [hnull, hstr, hst, on_suspend]
  · rw [hnull] at hdec
    simp at hdec

/-- C5 witness: the amended RESUME behaviour at the concrete running
controller. -/
theorem c5_resume_suspends_witness :
    on_ready_read_standard_output c5vm c5chunk =
      ({ c5vm with state := .suspended, vm_process_running := false },
        [.logMsg "VM suspended", .killProcess, .monitorOnSuspend]) := by
  exact c5_resume_suspends c5vm c5chunk rfl (Or.inr rfl)

/-! ## Claim C2 -/

/-- C2 counterexample: a chunk with a STOP object and then a RESET object.
The spec-side per-object decoder sees both events, but the handler reacts
only to the first line: a running VM stays running, only the STOP log is
emitted, and the RESET is never processed. -/
theorem c2_second_object_ignored :
    spec_chunk_events c2chunk = [QmpEvent.STOP, QmpEvent.RESET] ∧
    (on_ready_read_standard_output c2vm c2chunk).1 = c2vm ∧
    (on_ready_read_standard_output c2vm c2chunk).2 = [.logMsg "VM suspending"] ∧
    Event.monitorOnRestart "test-vm" ∉ (on_ready_read_standard_output c2vm c2chunk).2 := by
  refine ⟨rfl, rfl, rfl, by decide⟩

/-- C2 (amended): the handler decodes and dispatches only the first
newline-delimited object of each chunk; on that object it is exactly the
typed-event pipeline — a non-null event value mapped through the known
event names (unknown names and missing events ignored without failing),
dispatched with the RESET and RESUME state guards. -/
theorem c2_first_line_decode_dispatch (vm : VmState) (chunk : String) :
    on_ready_read_standard_output vm chunk =
      dispatchQmpEvent vm (decodeQmpLine ((splitLines chunk).headD "")) := by
  unfold on_ready_read_standard_output decodeQmpLine
  set line := (splitLines chunk).headD "" with hline
  set ev := jsonGet (fromJsonObject line) "event" with hev
  rcases hnull : ev.isNull with _ | _
  · simp only [hnull, Bool.false_eq_true, if_false]
    by_cases h1 : ev.toStr = "RESET"
    · by_cases hr : vm.state = State.restarting <;>
        simp [qmp_event_of_string, h1, hr, dispatchQmpEvent]
    · by_cases h2 : ev.toStr = "POWERDOWN"
      · simp [qmp_event_of_string, h1, h2, dispatchQmpEvent]
      · by_cases h3 : ev.toStr = "SHUTDOWN"
        · simp [qmp_event_of_string, h1, h2, h3, dispatchQmpEvent]
        · by_cases h4 : ev.toStr = "STOP"
          · simp [qmp_event_of_string, h1, h2, h3, h4, dispatchQmpEvent]
          · by_cases h5 : ev.toStr = "RESUME"
            · by_cases hs : vm.state = State.suspending ∨ vm.state = State.running <;>
                simp [qmp_event_of_string, h1, h2, h3, h4, h5, hs, dispatchQmpEvent]
            · simp [qmp_event_of_string, h1, h2, h3, h4, h5, dispatchQmpEvent]
  · simp [hnull, dispatchQmpEvent]

/-! ## Claim C7 -/

/-- C7 counterexample: the encoding of the system_powerdown command is not
a single-line JSON object — Qt's default toJson is the indented,
multi-line format. -/
theorem c7_encoding_not_single_line :
    isSingleLine (qmp_execute_json "system_powerdown") = false := by
  rfl

/-- Escaping is the identity on plain characters. -/
lemma escapeChars_plain : ∀ cs : List Char, cs.all plainChar = true → escapeChars cs = cs := by
  intro cs
  induction cs with
  | nil => intro; rfl
  | cons c cs ih =>
    intro h
    rw [List.all_cons, Bool.and_eq_true] at h
    obtain ⟨hc, hcs⟩ := h
    unfold plainChar at hc
    simp only [Bool.and_eq_true, Bool.not_eq_true', decide_eq_true_eq,
      decide_eq_false_iff_not] at hc
    obtain ⟨⟨h32, hq⟩, hb⟩ := hc
    have hn : ¬(c = '\n') := fun he => by subst he; exact absurd h32 (by decide)
    have hr : ¬(c = '\r') := fun he => by subst he; exact absurd h32 (by decide)
    have ht : ¬(c = '\t') := fun he => by subst he; exact absurd h32 (by decide)
    have h8 : ¬(c = Char.ofNat 8) := fun he => by subst he; exact absurd h32 (by decide)
    have h12 : ¬(c = Char.ofNat 12) := fun he => by subst he; exact absurd h32 (by decide)
    unfold escapeChars escapeChar
    rw [if_neg hq, if_neg hb, if_neg hn, if_neg hr, if_neg ht, if_neg h8, if_neg h12,
      if_neg (by omega), ih hcs]
    rfl

/-- On a plain body the string parser consumes up to the closing quote. -/
lemma parseStringBody_plain : ∀ cs rest : List Char, cs.all plainChar = true →
    parseStringBody (cs ++ '"' :: rest) = some (cs, rest) := by
  intro cs
  induction cs with
  | nil =>
    intro rest _
    rw [List.nil_append, parseStringBody.eq_def]
    simp
  | cons c cs ih =>
    intro rest h
    rw [List.all_cons, Bool.and_eq_true] at h
    obtain ⟨hc, hcs⟩ := h
    unfold plainChar at hc
    simp only [Bool.and_eq_true, Bool.not_eq_true', decide_eq_true_eq,
      decide_eq_false_iff_not] at hc
    obtain ⟨⟨_, hq⟩, hb⟩ := hc
    rw [List.cons_append, parseStringBody.eq_def]
    simp [hq, hb, ih rest hcs]

/-- Fuel monotonicity: a successful parse stays successful with more
fuel. -/
lemma parse_mono_all : ∀ f : Nat,
    (∀ g cs r, f ≤ g → parseValue f cs = some r → parseValue g cs = some r) ∧
    (∀ g cs r, f ≤ g → parseObjectBody f cs = some r → parseObjectBody g cs = some r) ∧
    (∀ g cs r, f ≤ g → parseMember f cs = some r → parseMember g cs = some r) ∧
    (∀ g cs r, f ≤ g → parseMembersTail f cs = some r → parseMembersTail g cs = some r) := by
  intro f
  induction f with
  | zero =>
    refine ⟨?_, ?_, ?_, ?_⟩ <;> intro g cs r _ h <;>
      simp [parseValue, parseObjectBody, parseMember, parseMembersTail] at h
  | succ f ih =>
    obtain ⟨ihV, ihB, ihM, ihT⟩ := ih
    refine ⟨?_, ?_, ?_, ?_⟩ <;> intro g cs r hle h <;>
      (obtain ⟨g', rfl⟩ : ∃ g', g = g' + 1 := ⟨g - 1, by omega⟩) <;>
      (have hle' : f ≤ g' := by omega)
    · rcases hskip : skipWs cs with _ | ⟨c, rest⟩
      · simp only [parseValue, hskip] at h
        exact absurd h (by simp)
      · simp only [parseValue, hskip] at h ⊢
        split_ifs at h ⊢ <;> try exact h
        obtain ⟨p, hp, hr⟩ := Option.map_eq_some'.mp h
        rw [ihB g' rest p hle' hp, Option.map_some']
        exact congrArg some hr
    · rcases hskip : skipWs cs with _ | ⟨c, rest⟩
      · simp only [parseObjectBody, hskip] at h
        exact absurd h (by simp)
      · simp only [parseObjectBody, hskip] at h ⊢
        split_ifs at h ⊢ <;> try exact h
        rcases hm : parseMember f (c :: rest) with _ | ⟨kv, rest₁⟩ <;> rw [hm] at h
        · exact absurd h (by simp)
        · have hm' := ihM g' (c :: rest) (kv, rest₁) hle' hm
          obtain ⟨p, hp, hr⟩ := Option.map_eq_some'.mp h
          have hp' := ihT g' rest₁ p hle' hp
          simp only [hm', hp', Option.map_some']
          exact congrArg some hr
    · rcases hskip : skipWs cs with _ | ⟨c, rest⟩
      · simp only [parseMember, hskip] at h
        exact absurd h (by simp)
      · simp only [parseMember, hskip] at h ⊢
        split_ifs at h ⊢
        try exact h
        rcases hs : parseStringBody rest with _ | ⟨k, rest₁⟩
        · rw [hs] at h
          exact h
        · rw [hs] at h
          simp only [] at h ⊢
          rcases hskip₂ : skipWs rest₁ with _ | ⟨d, rest₂⟩
          · rw [hskip₂] at h
            exact h
          · rw [hskip₂] at h
            simp only [] at h ⊢
            split_ifs at h ⊢
            try exact h
            obtain ⟨p, hp, hr⟩ := Option.map_eq_some'.mp h
            have hp' := ihV g' rest₂ p hle' hp
            simp only [hp', Option.map_some']
            exact congrArg some hr
    · rcases hskip : skipWs cs with _ | ⟨c, rest⟩
      · simp only [parseMembersTail, hskip] at h
        exact absurd h (by simp)
      · simp only [parseMembersTail, hskip] at h ⊢
        split_ifs at h ⊢ <;> try exact h
        rcases hm : parseMember f rest with _ | ⟨kv, rest₁⟩ <;> rw [hm] at h
        · exact absurd h (by simp)
        · have hm' := ihM g' rest (kv, rest₁) hle' hm
          obtain ⟨p, hp, hr⟩ := Option.map_eq_some'.mp h
          have hp' := ihT g' rest₁ p hle' hp
          simp only [hm', hp', Option.map_some']
          exact congrArg some hr

/-- Character-level shape of the encoded execute object. -/
lemma qmp_execute_json_chars (cmd : String) (h : plainString cmd = true) :
    (qmp_execute_json cmd).toList =
      '\x7b' :: '\n' :: ' ' :: ' ' :: ' ' :: ' ' :: '"' ::
      'e' :: 'x' :: 'e' :: 'c' :: 'u' :: 't' :: 'e' :: '"' :: ':' :: ' ' :: '"' ::
        (cmd.toList ++ '"' :: '\n' :: '\x7d' :: '\n' :: []) := by
  have h1 : escapedString cmd = cmd := by
    unfold escapedString
    rw [escapeChars_plain cmd.toList h]
    rfl
  have h2 : escapedString "execute" = "execute" := rfl
  have h3 : indentString 1 = "    " := rfl
  simp [qmp_execute_json, toJsonIndented, jsonInsert, objectContentToJson, memberToJson,
    membersTailToJson, valueToJson, h1, h2, h3, String.toList, String.data_append]

lemma parse_qmp_template (cmd : List Char) (h : cmd.all plainChar = true) :
    parseValue 8 ('\x7b' :: '\n' :: ' ' :: ' ' :: ' ' :: ' ' :: '"' ::
      'e' :: 'x' :: 'e' :: 'c' :: 'u' :: 't' :: 'e' :: '"' :: ':' :: ' ' :: '"' ::
        (cmd ++ '"' :: '\n' :: '\x7d' :: '\n' :: []))
      = some (.obj (buildObject [("execute", .str (String.mk cmd))]), ['\n']) := by
  have hkey : ∀ rest, parseStringBody
      ('e' :: 'x' :: 'e' :: 'c' :: 'u' :: 't' :: 'e' :: '"' :: rest)
      = some (['e', 'x', 'e', 'c', 'u', 't', 'e'], rest) := fun rest => by
    simpa using parseStringBody_plain ['e', 'x', 'e', 'c', 'u', 't', 'e'] rest (by decide)
  have hcmd := fun rest => parseStringBody_plain cmd rest h
  simp [parseValue, parseObjectBody, parseMember, parseMembersTail, skipWs, isWs,
    hkey, hcmd]

lemma fromJsonObject_qmp (cmd : String) (h : plainString cmd = true) :
    fromJsonObject (qmp_execute_json cmd) = [("execute", .str cmd)] := by
  unfold fromJsonObject
  rw [qmp_execute_json_chars cmd h]
  have h8 : (8 : Nat) ≤
      ('\x7b' :: '\n' :: ' ' :: ' ' :: ' ' :: ' ' :: '"' ::
        'e' :: 'x' :: 'e' :: 'c' :: 'u' :: 't' :: 'e' :: '"' :: ':' :: ' ' :: '"' ::
        (cmd.toList ++ '"' :: '\n' :: '\x7d' :: '\n' :: [])).length + 2 := by
    simp
  have hp := (parse_mono_all 8).1 _ _ _ h8 (parse_qmp_template cmd.toList h)
  rw [hp]
  simp [buildObject, jsonInsert, skipWs, isWs]

lemma parse_hmc_template (line : List Char) (h : line.all plainChar = true) :
    parseValue 8 ('\x7b' :: '\n' :: ' ' :: ' ' :: ' ' :: ' ' :: '"' :: 'a' :: 'r' :: 'g' :: 'u' :: 'm' :: 'e' :: 'n' :: 't' :: 's' :: '"' :: ':' :: ' ' :: '\x7b' :: '\n' :: ' ' :: ' ' :: ' ' :: ' ' :: ' ' :: ' ' :: ' ' :: ' ' :: '"' :: 'c' :: 'o' :: 'm' :: 'm' :: 'a' :: 'n' :: 'd' :: '-' :: 'l' :: 'i' :: 'n' :: 'e' :: '"' :: ':' :: ' ' :: '"' :: (line ++ '"' :: '\n' :: ' ' :: ' ' :: ' ' :: ' ' :: '\x7d' :: ',' :: '\n' :: ' ' :: ' ' :: ' ' :: ' ' :: '"' :: 'e' :: 'x' :: 'e' :: 'c' :: 'u' :: 't' :: 'e' :: '"' :: ':' :: ' ' :: '"' :: 'h' :: 'u' :: 'm' :: 'a' :: 'n' :: '-' :: 'm' :: 'o' :: 'n' :: 'i' :: 't' :: 'o' :: 'r' :: '-' :: 'c' :: 'o' :: 'm' :: 'm' :: 'a' :: 'n' :: 'd' :: '"' :: '\n' :: '\x7d' :: '\n' :: []))
      = some (.obj (buildObject
          [("arguments", .obj (buildObject [("command-line", .str (String.mk line))])),
           ("execute", .str "human-monitor-command")]), ['\n']) := by
  have hka : ∀ rest, parseStringBody ('a' :: 'r' :: 'g' :: 'u' :: 'm' :: 'e' :: 'n' :: 't' :: 's' :: '"' :: rest)
      = some ("arguments".toList, rest) := fun rest => by
    simpa using parseStringBody_plain "arguments".toList rest (by decide)
  have hkc : ∀ rest, parseStringBody ('c' :: 'o' :: 'm' :: 'm' :: 'a' :: 'n' :: 'd' :: '-' :: 'l' :: 'i' :: 'n' :: 'e' :: '"' :: rest)
      = some ("command-line".toList, rest) := fun rest => by
    simpa using parseStringBody_plain "command-line".toList rest (by decide)
  have hke : ∀ rest, parseStringBody ('e' :: 'x' :: 'e' :: 'c' :: 'u' :: 't' :: 'e' :: '"' :: rest)
      = some ("execute".toList, rest) := fun rest => by
    simpa using parseStringBody_plain "execute".toList rest (by decide)
  have hkh : ∀ rest, parseStringBody ('h' :: 'u' :: 'm' :: 'a' :: 'n' :: '-' :: 'm' :: 'o' :: 'n' :: 'i' :: 't' :: 'o' :: 'r' :: '-' :: 'c' :: 'o' :: 'm' :: 'm' :: 'a' :: 'n' :: 'd' :: '"' :: rest)
      = some ("human-monitor-command".toList, rest) := fun rest => by
    simpa using parseStringBody_plain "human-monitor-command".toList rest (by decide)
  have hline := fun rest => parseStringBody_plain line rest h
  simp [parseValue, parseObjectBody, parseMember, parseMembersTail, skipWs, isWs,
    hka, hkc, hke, hkh, hline]

lemma hmc_to_qmp_json_chars (line : String) (h : plainString line = true) :
    (hmc_to_qmp_json line).toList = '\x7b' :: '\n' :: ' ' :: ' ' :: ' ' :: ' ' :: '"' :: 'a' :: 'r' :: 'g' :: 'u' :: 'm' :: 'e' :: 'n' :: 't' :: 's' :: '"' :: ':' :: ' ' :: '\x7b' :: '\n' :: ' ' :: ' ' :: ' ' :: ' ' :: ' ' :: ' ' :: ' ' :: ' ' :: '"' :: 'c' :: 'o' :: 'm' :: 'm' :: 'a' :: 'n' :: 'd' :: '-' :: 'l' :: 'i' :: 'n' :: 'e' :: '"' :: ':' :: ' ' :: '"' :: (line.toList ++ '"' :: '\n' :: ' ' :: ' ' :: ' ' :: ' ' :: '\x7d' :: ',' :: '\n' :: ' ' :: ' ' :: ' ' :: ' ' :: '"' :: 'e' :: 'x' :: 'e' :: 'c' :: 'u' :: 't' :: 'e' :: '"' :: ':' :: ' ' :: '"' :: 'h' :: 'u' :: 'm' :: 'a' :: 'n' :: '-' :: 'm' :: 'o' :: 'n' :: 'i' :: 't' :: 'o' :: 'r' :: '-' :: 'c' :: 'o' :: 'm' :: 'm' :: 'a' :: 'n' :: 'd' :: '"' :: '\n' :: '\x7d' :: '\n' :: []) := by
  have h1 : escapedString line = line := by
    unfold escapedString
    rw [escapeChars_plain line.toList h]
    rfl
  have h2 : escapedString "arguments" = "arguments" := rfl
  have h3 : escapedString "command-line" = "command-line" := rfl
  have h4 : escapedString "execute" = "execute" := rfl
  have h5 : escapedString "human-monitor-command" = "human-monitor-command" := rfl
  have h6 : indentString 1 = "    " := rfl
  have h7 : indentString 2 = "        " := rfl
  have hq := fromJsonObject_qmp "human-monitor-command" (by decide)
  simp [hmc_to_qmp_json, hq, toJsonIndented, jsonInsert, strLtB, charListLt,
    objectContentToJson, memberToJson, membersTailToJson, valueToJson,
    h1, h2, h3, h4, h5, h6, h7, String.toList, String.data_append]

/-- Decoding the encoded human-monitor-command wrapper. -/
lemma fromJsonObject_hmc (line : String) (h : plainString line = true) :
    fromJsonObject (hmc_to_qmp_json line) =
      [("arguments", .obj [("command-line", .str line)]),
       ("execute", .str "human-monitor-command")] := by
  unfold fromJsonObject
  rw [hmc_to_qmp_json_chars line h]
  have h8 : (8 : Nat) ≤ ('\x7b' :: '\n' :: ' ' :: ' ' :: ' ' :: ' ' :: '"' :: 'a' :: 'r' :: 'g' :: 'u' :: 'm' :: 'e' :: 'n' :: 't' :: 's' :: '"' :: ':' :: ' ' :: '\x7b' :: '\n' :: ' ' :: ' ' :: ' ' :: ' ' :: ' ' :: ' ' :: ' ' :: ' ' :: '"' :: 'c' :: 'o' :: 'm' :: 'm' :: 'a' :: 'n' :: 'd' :: '-' :: 'l' :: 'i' :: 'n' :: 'e' :: '"' :: ':' :: ' ' :: '"' :: (line.toList ++ '"' :: '\n' :: ' ' :: ' ' :: ' ' :: ' ' :: '\x7d' :: ',' :: '\n' :: ' ' :: ' ' :: ' ' :: ' ' :: '"' :: 'e' :: 'x' :: 'e' :: 'c' :: 'u' :: 't' :: 'e' :: '"' :: ':' :: ' ' :: '"' :: 'h' :: 'u' :: 'm' :: 'a' :: 'n' :: '-' :: 'm' :: 'o' :: 'n' :: 'i' :: 't' :: 'o' :: 'r' :: '-' :: 'c' :: 'o' :: 'm' :: 'm' :: 'a' :: 'n' :: 'd' :: '"' :: '\n' :: '\x7d' :: '\n' :: [])).length + 2 := by
    simp
  have hp := (parse_mono_all 8).1 _ _ _ h8 (parse_hmc_template line.toList h)
  rw [hp]
  simp [buildObject, jsonInsert, strLtB, charListLt, skipWs, isWs]

/-- C7 (amended): encoding produces the indented, multi-line serialisation
of the object with the "execute" member (and the "arguments" member in the
hmc wrapper) ending in a newline, and decoding an encoded command yields an
object whose execute field equals the command and whose arguments equal the
supplied command line. -/
theorem c7_qmp_encode_decode (cmd command_line : String)
    (hc : plainString cmd = true) (hl : plainString command_line = true) :
    qmp_execute_json cmd = "\x7b\n    \"execute\": \"" ++ cmd ++ "\"\n\x7d\n" ∧
    fromJsonObject (qmp_execute_json cmd) = [("execute", .str cmd)] ∧
    jsonGet (fromJsonObject (hmc_to_qmp_json command_line)) "execute" =
      .str "human-monitor-command" ∧
    jsonGet (fromJsonObject (hmc_to_qmp_json command_line)) "arguments" =
      .obj [("command-line", .str command_line)] := by
  refine ⟨String.ext ?_, fromJsonObject_qmp cmd hc, ?_, ?_⟩
  · rw [show (qmp_execute_json cmd).data = (qmp_execute_json cmd).toList from rfl,
      qmp_execute_json_chars cmd hc]
    simp [String.data_append]
  · rw [fromJsonObject_hmc command_line hl]
    rfl
  · rw [fromJsonObject_hmc command_line hl]
    rfl

/-- C7 witness: the round trip at the concrete commands this program
sends. -/
theorem c7_qmp_encode_decode_witness :
    qmp_execute_json "system_powerdown" =
      "\x7b\n    \"execute\": \"system_powerdown\"\n\x7d\n" ∧
    fromJsonObject (qmp_execute_json "system_powerdown") =
      [("execute", .str "system_powerdown")] ∧
    jsonGet (fromJsonObject (hmc_to_qmp_json "savevm suspend")) "execute" =
      .str "human-monitor-command" ∧
    jsonGet (fromJsonObject (hmc_to_qmp_json "savevm suspend")) "arguments" =
      .obj [("command-line", .str "savevm suspend")] := by
  exact c7_qmp_encode_decode "system_powerdown" "savevm suspend" (by decide) (by decide)

end Multipass
